import Mathlib

/-!
Shallow embedding of the oscilloscope simulator (slevin088/oscilloscopio).

The repository ships two variants of the single-file React app: a JS
variant (`osci.jsx`, the one imported by the entry point `main.jsx`) and a
TS variant of the same application.  Both are embedded below: namespace
`JS` follows the JS variant, namespace `TS` the TS variant.  Real numbers
stand for JS doubles; the stream of `Math.random()` results consumed by a
call is passed explicitly as `rand : ℕ → ℝ`.
-/

/-- The parameters object passed to `waveformSample`
(`{ amplitude, frequency, phase, dc, difficulty, noise = 0 }`).
The display-only `color` token is not part of the sampler's input. -/
structure WParams where
  amplitude : ℝ
  frequency : ℝ
  phase : ℝ
  dc : ℝ
  difficulty : String
  noise : ℝ

/-- Box–Muller `randn()`.  The source rejects zero uniform draws before
taking the logarithm (`while (u === 0) u = Math.random()`); the embedding
receives the two accepted draws `u`, `v` directly. -/
noncomputable def randn (u v : ℝ) : ℝ :=
  Real.sqrt (-2 * Real.log u) * Real.cos (2 * Real.pi * v)

/-- The difficulty-dependent noise standard deviation computed at the end
of `waveformSample` (identical in both variants):
`noiseStd = noise`, plus `0.02·amplitude` when the difficulty is
`"intermedio"`, plus `0.05·amplitude` when it is `"avanzato"`. -/
noncomputable def noiseStd (p : WParams) : ℝ :=
  p.noise +
    (if p.difficulty = "intermedio" then 0.02 * p.amplitude else 0) +
    (if p.difficulty = "avanzato" then 0.05 * p.amplitude else 0)

namespace JS

/-- The `switch (type)` block of `waveformSample` in the JS variant
(`osci.jsx`): the per-kind value `y` before the DC offset and the noise
term are added.  `rand 0` is the `Math.random()` draw of the `"noise"`
branch.  The JS `%`-wrap `((x % 1) + 1) % 1` (a value in `[0,1)`) is
`Int.fract`. -/
noncomputable def kindValue (type : String) (t : ℝ) (p : WParams)
    (rand : ℕ → ℝ) : ℝ :=
  let w := 2 * Real.pi * p.frequency
  let baseSine := Real.sin (w * t + p.phase)
  if type = "sine" then p.amplitude * baseSine
  else if type = "square" then
    p.amplitude * (if 0 ≤ Real.sin (w * t + p.phase) then 1 else -1)
  else if type = "triangle" then
    let frac := Int.fract (t * p.frequency + p.phase / (2 * Real.pi))
    p.amplitude * (4 * |frac - 0.5| - 1)
  else if type = "saw" then
    let frac := Int.fract (t * p.frequency + p.phase / (2 * Real.pi))
    p.amplitude * (2 * frac - 1)
  else if type = "rectified" then p.amplitude * max 0 baseSine
  else if type = "am" then
    let m := 0.5 * (1 + Real.sin (2 * Real.pi * (p.frequency / 10) * t))
    (p.amplitude * m) * Real.sin (w * t + p.phase)
  else if type = "fm" then
    let dev := 0.2 * p.frequency
    let instPhase := 2 * Real.pi * (p.frequency * t +
      (dev / (2 * Real.pi)) *
        (1 - Real.cos (2 * Real.pi * (p.frequency / 8) * t))) + p.phase
    p.amplitude * Real.sin instPhase
  else if type = "noise" then p.amplitude * (rand 0 * 2 - 1)
  else if type = "sum2" then
    0.6 * p.amplitude * Real.sin (w * t + p.phase) +
      0.6 * p.amplitude * Real.sin (2 * w * t + p.phase / 3)
  else p.amplitude * baseSine

/-- Function `waveformSample` from the JS variant: the switch value, plus the DC
offset, plus (when `noiseStd > 0`) the Gaussian noise term.  `rand 1` and
`rand 2` are the accepted uniform draws of the `randn()` call. -/
noncomputable def waveformSample (type : String) (t : ℝ) (p : WParams)
    (rand : ℕ → ℝ) : ℝ :=
  let y := kindValue type t p rand + p.dc
  if noiseStd p > 0 then y + randn (rand 1) (rand 2) * noiseStd p else y

end JS

namespace TS

/-- The `switch (type)` block of `waveformSample` in the TS variant:
identical to the JS variant except for the `"sum2"` case, which is the
normalized harmonic sum
`amplitude · (sin(ωt+φ) + 0.5·sin(2ωt+2φ)) / 1.299038105676658`. -/
noncomputable def kindValue (type : String) (t : ℝ) (p : WParams)
    (rand : ℕ → ℝ) : ℝ :=
  let w := 2 * Real.pi * p.frequency
  let baseSine := Real.sin (w * t + p.phase)
  if type = "sine" then p.amplitude * baseSine
  else if type = "square" then
    p.amplitude * (if 0 ≤ Real.sin (w * t + p.phase) then 1 else -1)
  else if type = "triangle" then
    let frac := Int.fract (t * p.frequency + p.phase / (2 * Real.pi))
    p.amplitude * (4 * |frac - 0.5| - 1)
  else if type = "saw" then
    let frac := Int.fract (t * p.frequency + p.phase / (2 * Real.pi))
    p.amplitude * (2 * frac - 1)
  else if type = "rectified" then p.amplitude * max 0 baseSine
  else if type = "am" then
    let m := 0.5 * (1 + Real.sin (2 * Real.pi * (p.frequency / 10) * t))
    (p.amplitude * m) * Real.sin (w * t + p.phase)
  else if type = "fm" then
    let dev := 0.2 * p.frequency
    let inst := 2 * Real.pi * (p.frequency * t +
      (dev / (2 * Real.pi)) *
        (1 - Real.cos (2 * Real.pi * (p.frequency / 8) * t))) + p.phase
    p.amplitude * Real.sin inst
  else if type = "noise" then p.amplitude * (rand 0 * 2 - 1)
  else if type = "sum2" then
    let raw := Real.sin (w * t + p.phase) +
      0.5 * Real.sin (2 * w * t + 2 * p.phase)
    let NORM : ℝ := 1.299038105676658
    p.amplitude * (raw / NORM)
  else p.amplitude * baseSine

/-- Function `waveformSample` from the TS variant: the switch value, plus (when
`noiseStd > 0`) the Gaussian noise term, plus the DC offset
(`return y + dc`). -/
noncomputable def waveformSample (type : String) (t : ℝ) (p : WParams)
    (rand : ℕ → ℝ) : ℝ :=
  let y := kindValue type t p rand
  let y := if noiseStd p > 0 then y + randn (rand 1) (rand 2) * noiseStd p
    else y
  y + p.dc

end TS

/-- One channel of the shared configuration (the display-only `color`
token is omitted). -/
structure Channel where
  id : ℕ
  enabled : Bool
  waveform : String
  amplitude : ℝ
  frequency : ℝ
  phase : ℝ
  dc : ℝ
  noise : ℝ

/-- The shared-state fields consumed by the scope canvas. -/
structure Shared where
  difficulty : String
  sampleRate : ℝ
  durationDivs : ℝ
  verticalDivs : ℝ

/-- The student view fields consumed by the scope canvas. -/
structure View where
  vPerDiv : ℝ
  sPerDiv : ℝ
  vOffset : ℝ
  tOffset : ℝ

/-- Fixed logical canvas width (`const width = 980`). -/
def width : ℝ := 980

/-- Fixed logical canvas height (`const height = 520`). -/
def height : ℝ := 520

/-- JS `Math.round`: half-up rounding, `Math.round x = ⌊x + 0.5⌋`. -/
noncomputable def jsRound (x : ℝ) : ℝ := (⌊x + 0.5⌋ : ℤ)

/-- A JS double as seen by the checker: either a finite number or a
non-finite value (`NaN`, `±Infinity`).  The checker only ever applies
`isFinite` to a non-finite value, so the non-finite values are collapsed
into the single constructor `nonFinite`. -/
inductive JSVal where
  | num (x : ℝ)
  | nonFinite

/-- JS `isFinite`. -/
def JSVal.isFinite : JSVal → Bool
  | JSVal.num _ => true
  | JSVal.nonFinite => false

/-- The five parsed student entries for one channel
(`parseFloat` of each free-text field; a non-numeric or empty entry
parses to `NaN`, i.e. `JSVal.nonFinite`). -/
structure Measure where
  vmax : JSVal
  vmin : JSVal
  vpp : JSVal
  period : JSVal
  freq : JSVal

/-- The analytically derived reference values of one channel.  In the
source all five are JS numbers; only `period` can be non-finite
(`Infinity` when the frequency is zero), so the others stay `ℝ`. -/
structure CorrectVals where
  vmax : ℝ
  vmin : ℝ
  vpp : ℝ
  period : JSVal
  freq : ℝ

/-- Voltage tolerance of `doCheck` (`const tolV = 0.05`). -/
def tolV : ℝ := 0.05

/-- Time/frequency tolerance of `doCheck` (`const tolF = 0.02`). -/
def tolF : ℝ := 0.02

namespace JS

/-- Function `computeCorrect` of the JS variant, for one channel.  The `sine` and
`square` cases and the fall-through default all assign the same
`±amplitude`/`dc` envelope; the default case zeroes the frequency for
`"noise"` channels. -/
noncomputable def computeCorrect (ch : Channel) : CorrectVals :=
  if ch.waveform = "sine" then
    { vmax := ch.dc + ch.amplitude, vmin := ch.dc - ch.amplitude,
      vpp := 2 * ch.amplitude,
      period := if ch.frequency > 0 then JSVal.num (1 / ch.frequency)
        else JSVal.nonFinite,
      freq := ch.frequency }
  else if ch.waveform = "square" then
    { vmax := ch.dc + ch.amplitude, vmin := ch.dc - ch.amplitude,
      vpp := 2 * ch.amplitude,
      period := if ch.frequency > 0 then JSVal.num (1 / ch.frequency)
        else JSVal.nonFinite,
      freq := ch.frequency }
  else
    let freq := if ch.waveform = "noise" then 0 else ch.frequency
    { vmax := ch.dc + ch.amplitude, vmin := ch.dc - ch.amplitude,
      vpp := 2 * ch.amplitude,
      period := if freq > 0 then JSVal.num (1 / freq) else JSVal.nonFinite,
      freq := freq }

/-- One field comparison of `doCheck` (JS variant): the field passes when
both the parsed student value `u` and the reference `c` are finite and
the relative error `|u − c| / (|c| + 1e-9)` is within `tol`. -/
noncomputable def fieldPass (u c : JSVal) (tol : ℝ) : Bool :=
  match u, c with
  | JSVal.num uv, JSVal.num cv => decide (|uv - cv| / (|cv| + 1e-9) ≤ tol)
  | _, _ => false

/-- The per-channel `ok` flag of `doCheck` (JS variant): all five fields
pass against the reference values. -/
noncomputable def checkChannel (user : Measure) (corr : CorrectVals) : Bool :=
  fieldPass user.vmax (JSVal.num corr.vmax) tolV &&
  fieldPass user.vmin (JSVal.num corr.vmin) tolV &&
  fieldPass user.vpp (JSVal.num corr.vpp) tolV &&
  fieldPass user.period corr.period tolF &&
  fieldPass user.freq (JSVal.num corr.freq) tolF

/-- The overall `res.ok` of `doCheck` (JS variant): every enabled channel
passes; disabled channels are skipped. -/
noncomputable def doCheckOk (channels : List Channel)
    (measures : ℕ → Measure) : Bool :=
  channels.all fun ch =>
    !ch.enabled || checkChannel (measures ch.id) (computeCorrect ch)

end JS

namespace TS

/-- The inline reference values of `doCheck` in the TS variant
(`const corr = { vmax: ch.amplitude + ch.dc, ... }`).  Unlike the JS
`computeCorrect`, the frequency is taken from the channel configuration
for every waveform, including `"noise"`. -/
noncomputable def correctVals (ch : Channel) : CorrectVals :=
  { vmax := ch.amplitude + ch.dc, vmin := -ch.amplitude + ch.dc,
    vpp := 2 * ch.amplitude,
    period := if ch.frequency > 0 then JSVal.num (1 / ch.frequency)
      else JSVal.nonFinite,
    freq := ch.frequency }

end TS

namespace JS

/-- The x coordinate at which the JS `ScopeCanvas` grid loop draws the
vertical gridline of index `i` (`ctx.moveTo(i * dx, 0)` with
`dx = width / divX`; no pixel snapping in this variant). -/
noncomputable def gridVerticalX (divX : ℝ) (i : ℕ) : ℝ :=
  (i : ℝ) * (width / divX)

/-- The sample count of the JS `ScopeCanvas` channel loop:
`N = Math.max(1000, Math.floor(shared.sampleRate * totalTime))` with
`totalTime = view.sPerDiv * shared.durationDivs`. -/
noncomputable def sampleCount (shared : Shared) (view : View) : ℤ :=
  max 1000 ⌊shared.sampleRate * (view.sPerDiv * shared.durationDivs)⌋

/-- The vertex list built by the JS `ScopeCanvas` channel loop for one
enabled channel: `N` samples mapped to time and pixel coordinates.
`rand i` is the random stream available to the sample of index `i`. -/
noncomputable def channelPolyline (shared : Shared) (view : View)
    (ch : Channel) (rand : ℕ → ℕ → ℝ) : List (ℝ × ℝ) :=
  let totalTime := view.sPerDiv * shared.durationDivs
  let dy := height / shared.verticalDivs
  let N : ℤ := sampleCount shared view
  (List.range N.toNat).map fun (i : ℕ) =>
    let t := ((i : ℝ) / ((N : ℝ) - 1)) * totalTime + view.tOffset
    let yV := waveformSample ch.waveform t
      { amplitude := ch.amplitude, frequency := ch.frequency,
        phase := ch.phase, dc := ch.dc, difficulty := shared.difficulty,
        noise := ch.noise } (rand i)
    (((i : ℝ) / ((N : ℝ) - 1)) * width,
      height / 2 - ((yV - view.vOffset) / view.vPerDiv) * dy)

end JS

namespace TS

/-- The x coordinate at which the TS `ScopeCanvas` grid loop draws the
vertical gridline of index `i` (`const x = Math.round(i * dx) + 0.5`). -/
noncomputable def gridVerticalX (divX : ℝ) (i : ℕ) : ℝ :=
  jsRound ((i : ℝ) * (width / divX)) + 0.5

/-- The sample count of the TS `ScopeCanvas` channel loop:
`N = Math.max(2000, Math.floor(shared.sampleRate * totalTime))`. -/
noncomputable def sampleCount (shared : Shared) (view : View) : ℤ :=
  max 2000 ⌊shared.sampleRate * (view.sPerDiv * shared.durationDivs)⌋

/-- The vertex list built by the TS `ScopeCanvas` channel loop for one
enabled channel: sample floor 2000 instead of 1000, and every vertex is
pixel-snapped to `Math.round(..) + 0.5` in both coordinates. -/
noncomputable def channelPolyline (shared : Shared) (view : View)
    (ch : Channel) (rand : ℕ → ℕ → ℝ) : List (ℝ × ℝ) :=
  let totalTime := view.sPerDiv * shared.durationDivs
  let dy := height / shared.verticalDivs
  let N : ℤ := sampleCount shared view
  (List.range N.toNat).map fun (i : ℕ) =>
    let t := ((i : ℝ) / ((N : ℝ) - 1)) * totalTime + view.tOffset
    let yV := waveformSample ch.waveform t
      { amplitude := ch.amplitude, frequency := ch.frequency,
        phase := ch.phase, dc := ch.dc, difficulty := shared.difficulty,
        noise := ch.noise } (rand i)
    (jsRound (((i : ℝ) / ((N : ℝ) - 1)) * width) + 0.5,
      jsRound (height / 2 - ((yV - view.vOffset) / view.vPerDiv) * dy) + 0.5)

end TS



/-- With channel noise `0` and difficulty `"base"`, the difficulty noise
floor vanishes. -/
theorem noiseStd_base (p : WParams) (hn : p.noise = 0)
    (hd : p.difficulty = "base") : noiseStd p = 0 := by
  rw [noiseStd, hn, hd, if_neg (by decide), if_neg (by decide)]
  norm_num

/-- With zero `noiseStd`, the JS `waveformSample` is the switch value
plus the DC offset. -/
theorem JS.waveformSample_noiseless (type : String) (t : ℝ) (p : WParams)
    (rand : ℕ → ℝ) (hn : p.noise = 0) (hd : p.difficulty = "base") :
    JS.waveformSample type t p rand = JS.kindValue type t p rand + p.dc := by
  rw [JS.waveformSample]
  simp only [noiseStd_base p hn hd, gt_iff_lt, lt_self_iff_false,
    if_false]

/-- With zero `noiseStd`, the TS `waveformSample` is the switch value
plus the DC offset. -/
theorem TS.waveformSample_noiseless_ts (type : String) (t : ℝ) (p : WParams)
    (rand : ℕ → ℝ) (hn : p.noise = 0) (hd : p.difficulty = "base") :
    TS.waveformSample type t p rand = TS.kindValue type t p rand + p.dc := by
  rw [TS.waveformSample]
  simp only [noiseStd_base p hn hd, gt_iff_lt, lt_self_iff_false,
    if_false]

/-- The JS switch value does not read the random stream for any kind
other than `"noise"`. -/
theorem JS.kindValue_rand_inv (type : String) (t : ℝ) (p : WParams)
    (r1 r2 : ℕ → ℝ) (htype : type ≠ "noise") :
    JS.kindValue type t p r1 = JS.kindValue type t p r2 := by
  unfold JS.kindValue
  dsimp only
  by_cases h1 : type = "sine"
  · rw [if_pos h1, if_pos h1]
  rw [if_neg h1, if_neg h1]
  by_cases h2 : type = "square"
  · rw [if_pos h2, if_pos h2]
  rw [if_neg h2, if_neg h2]
  by_cases h3 : type = "triangle"
  · rw [if_pos h3, if_pos h3]
  rw [if_neg h3, if_neg h3]
  by_cases h4 : type = "saw"
  · rw [if_pos h4, if_pos h4]
  rw [if_neg h4, if_neg h4]
  by_cases h5 : type = "rectified"
  · rw [if_pos h5, if_pos h5]
  rw [if_neg h5, if_neg h5]
  by_cases h6 : type = "am"
  · rw [if_pos h6, if_pos h6]
  rw [if_neg h6, if_neg h6]
  by_cases h7 : type = "fm"
  · rw [if_pos h7, if_pos h7]
  rw [if_neg h7, if_neg h7]
  rw [if_neg htype, if_neg htype]

/-- The TS switch value does not read the random stream for any kind
other than `"noise"`. -/
theorem TS.kindValue_rand_inv_ts (type : String) (t : ℝ) (p : WParams)
    (r1 r2 : ℕ → ℝ) (htype : type ≠ "noise") :
    TS.kindValue type t p r1 = TS.kindValue type t p r2 := by
  unfold TS.kindValue
  dsimp only
  by_cases h1 : type = "sine"
  · rw [if_pos h1, if_pos h1]
  rw [if_neg h1, if_neg h1]
  by_cases h2 : type = "square"
  · rw [if_pos h2, if_pos h2]
  rw [if_neg h2, if_neg h2]
  by_cases h3 : type = "triangle"
  · rw [if_pos h3, if_pos h3]
  rw [if_neg h3, if_neg h3]
  by_cases h4 : type = "saw"
  · rw [if_pos h4, if_pos h4]
  rw [if_neg h4, if_neg h4]
  by_cases h5 : type = "rectified"
  · rw [if_pos h5, if_pos h5]
  rw [if_neg h5, if_neg h5]
  by_cases h6 : type = "am"
  · rw [if_pos h6, if_pos h6]
  rw [if_neg h6, if_neg h6]
  by_cases h7 : type = "fm"
  · rw [if_pos h7, if_pos h7]
  rw [if_neg h7, if_neg h7]
  rw [if_neg htype, if_neg htype]

/-- C2 (amended): for every waveform kind other than `"noise"`, with
channel noise `0` and difficulty `"base"`, `waveformSample` (both
variants) does not depend on the random stream: two calls with identical
arguments return the identical value.  The `"noise"` kind itself reads
`Math.random()` and is excluded. -/
theorem sample_deterministic_of_ne_noise (type : String) (t : ℝ)
    (p : WParams) (r1 r2 : ℕ → ℝ) (htype : type ≠ "noise")
    (hn : p.noise = 0) (hd : p.difficulty = "base") :
    JS.waveformSample type t p r1 = JS.waveformSample type t p r2 ∧
    TS.waveformSample type t p r1 = TS.waveformSample type t p r2 := by
  rw [JS.waveformSample_noiseless type t p r1 hn hd,
    JS.waveformSample_noiseless type t p r2 hn hd,
    TS.waveformSample_noiseless_ts type t p r1 hn hd,
    TS.waveformSample_noiseless_ts type t p r2 hn hd,
    JS.kindValue_rand_inv type t p r1 r2 htype,
    TS.kindValue_rand_inv_ts type t p r1 r2 htype]
  exact ⟨rfl, rfl⟩

/-- C2 witness: the deterministic case evaluated at the `"sine"` kind. -/
theorem sample_deterministic_witness :
    JS.waveformSample "sine" 0 ⟨1, 1, 0, 0, "base", 0⟩ (fun _ => 0) =
      JS.waveformSample "sine" 0 ⟨1, 1, 0, 0, "base", 0⟩ (fun _ => 1/2) :=
  (sample_deterministic_of_ne_noise "sine" 0 ⟨1, 1, 0, 0, "base", 0⟩
    (fun _ => 0) (fun _ => 1/2) (by decide) rfl rfl).1

/-- The JS switch value of the `"noise"` kind. -/
theorem JS.kindValue_noise_eval (t : ℝ) (p : WParams) (rand : ℕ → ℝ) :
    JS.kindValue "noise" t p rand = p.amplitude * (rand 0 * 2 - 1) := by
  unfold JS.kindValue
  dsimp only
  rw [if_neg (by decide), if_neg (by decide), if_neg (by decide),
    if_neg (by decide), if_neg (by decide), if_neg (by decide),
    if_neg (by decide), if_pos rfl]

/-- C2 counterexample: with channel noise `0` and difficulty `"base"`,
the `"noise"` waveform kind is not deterministic — two calls of the JS
`waveformSample` with identical arguments but different `Math.random()`
draws return different values (`-1` versus `0`). -/
theorem noise_kind_nondeterministic :
    JS.waveformSample "noise" 0 ⟨1, 1, 0, 0, "base", 0⟩ (fun _ => 0) ≠
    JS.waveformSample "noise" 0 ⟨1, 1, 0, 0, "base", 0⟩ (fun _ => 1/2) := by
  rw [JS.waveformSample_noiseless _ _ _ _ rfl rfl,
    JS.waveformSample_noiseless _ _ _ _ rfl rfl,
    JS.kindValue_noise_eval, JS.kindValue_noise_eval]
  norm_num

/-- The JS switch value of the `"square"` kind. -/
theorem JS.kindValue_square_eval (t : ℝ) (p : WParams) (rand : ℕ → ℝ) :
    JS.kindValue "square" t p rand =
      p.amplitude *
        (if 0 ≤ Real.sin (2 * Real.pi * p.frequency * t + p.phase) then 1
          else -1) := by
  unfold JS.kindValue
  dsimp only
  rw [if_neg (by decide), if_pos rfl]

/-- C9: with channel noise `0` and difficulty `"base"`, the `"square"`
kind returns `amplitude · sign(sin(ωt+φ)) + dc` with `sign(0) = +1`, and
the sampled value is always exactly `+amplitude + dc` or
`-amplitude + dc`, never an intermediate value. -/
theorem square_two_valued (t : ℝ) (p : WParams) (r : ℕ → ℝ)
    (hn : p.noise = 0) (hd : p.difficulty = "base") :
    JS.waveformSample "square" t p r =
      p.amplitude *
        (if 0 ≤ Real.sin (2 * Real.pi * p.frequency * t + p.phase) then 1
          else -1) + p.dc ∧
    (JS.waveformSample "square" t p r = p.amplitude + p.dc ∨
      JS.waveformSample "square" t p r = -p.amplitude + p.dc) := by
  rw [JS.waveformSample_noiseless "square" t p r hn hd,
    JS.kindValue_square_eval t p r]
  refine ⟨rfl, ?_⟩
  by_cases hs : 0 ≤ Real.sin (2 * Real.pi * p.frequency * t + p.phase)
  · left; rw [if_pos hs]; ring
  · right; rw [if_neg hs]; ring

/-- C9 witness: at `t = 0`, amplitude `1`, frequency `1`, phase `0`,
dc `0`, the square sample is exactly `sign(sin 0) = +1`. -/
theorem square_two_valued_witness :
    JS.waveformSample "square" 0 ⟨1, 1, 0, 0, "base", 0⟩ (fun _ => 0) =
      (1 : ℝ) *
        (if 0 ≤ Real.sin (2 * Real.pi * 1 * 0 + 0) then 1 else -1) + 0 :=
  (square_two_valued 0 ⟨1, 1, 0, 0, "base", 0⟩ (fun _ => 0) rfl rfl).1

/-- C10: a waveform-kind string outside the nine declared enum values
falls through to the default branch: both variants of `waveformSample`
return exactly the `"sine"` value (sine plus dc plus noise terms),
rather than failing. -/
theorem unknown_kind_defaults_to_sine (type : String) (t : ℝ)
    (p : WParams) (r : ℕ → ℝ)
    (h : type ∉ (["sine", "square", "triangle", "saw", "rectified", "am",
      "fm", "noise", "sum2"] : List String)) :
    JS.waveformSample type t p r = JS.waveformSample "sine" t p r ∧
    TS.waveformSample type t p r = TS.waveformSample "sine" t p r := by
  simp only [List.mem_cons, List.not_mem_nil, or_false, not_or] at h
  obtain ⟨h1, h2, h3, h4, h5, h6, h7, h8, h9⟩ := h
  have hJ : JS.kindValue type t p r = JS.kindValue "sine" t p r := by
    unfold JS.kindValue
    dsimp only
    rw [if_neg h1, if_neg h2, if_neg h3, if_neg h4, if_neg h5, if_neg h6,
      if_neg h7, if_neg h8, if_neg h9, if_pos rfl]
  have hT : TS.kindValue type t p r = TS.kindValue "sine" t p r := by
    unfold TS.kindValue
    dsimp only
    rw [if_neg h1, if_neg h2, if_neg h3, if_neg h4, if_neg h5, if_neg h6,
      if_neg h7, if_neg h8, if_neg h9, if_pos rfl]
  constructor
  · unfold JS.waveformSample
    dsimp only
    rw [hJ]
  · unfold TS.waveformSample
    dsimp only
    rw [hT]

/-- C10 witness: the unrecognized kind `"foo"` samples as `"sine"`. -/
theorem unknown_kind_witness :
    JS.waveformSample "foo" 0 ⟨1, 1, 0, 0, "base", 0⟩ (fun _ => 0) =
      JS.waveformSample "sine" 0 ⟨1, 1, 0, 0, "base", 0⟩ (fun _ => 0) :=
  (unknown_kind_defaults_to_sine "foo" 0 ⟨1, 1, 0, 0, "base", 0⟩
    (fun _ => 0) (by decide)).1

/-- The JS switch value of the `"sum2"` kind: the unnormalized sum
`0.6·A·sin(ωt+φ) + 0.6·A·sin(2ωt+φ/3)`. -/
theorem JS.kindValue_sum2_eval (t : ℝ) (p : WParams) (rand : ℕ → ℝ) :
    JS.kindValue "sum2" t p rand =
      0.6 * p.amplitude *
          Real.sin (2 * Real.pi * p.frequency * t + p.phase) +
        0.6 * p.amplitude *
          Real.sin (2 * (2 * Real.pi * p.frequency) * t + p.phase / 3) := by
  unfold JS.kindValue
  dsimp only
  rw [if_neg (by decide), if_neg (by decide), if_neg (by decide),
    if_neg (by decide), if_neg (by decide), if_neg (by decide),
    if_neg (by decide), if_neg (by decide), if_pos rfl]

/-- The TS switch value of the `"sum2"` kind: the normalized harmonic
sum `A·(sin(ωt+φ) + 0.5·sin(2ωt+2φ)) / 1.299038105676658`. -/
theorem TS.kindValue_sum2_eval_ts (t : ℝ) (p : WParams) (rand : ℕ → ℝ) :
    TS.kindValue "sum2" t p rand =
      p.amplitude *
        ((Real.sin (2 * Real.pi * p.frequency * t + p.phase) +
          0.5 * Real.sin (2 * (2 * Real.pi * p.frequency) * t + 2 * p.phase)) /
         1.299038105676658) := by
  unfold TS.kindValue
  dsimp only
  rw [if_neg (by decide), if_neg (by decide), if_neg (by decide),
    if_neg (by decide), if_neg (by decide), if_neg (by decide),
    if_neg (by decide), if_neg (by decide), if_pos rfl]

/-- C1 counterexample: at `t = 1`, amplitude `1`, frequency `1/4`, phase
`0`, dc `0`, channel noise `0` and difficulty `"base"`, the JS
`waveformSample` of kind `"sum2"` returns `0.6`, not the normalized
harmonic-sum value `(sin(ωt) + 0.5·sin(2ωt)) / 1.299038105676658 ≈ 0.77`
that the claim states. -/
theorem js_sum2_not_normalized :
    JS.waveformSample "sum2" 1 ⟨1, 1/4, 0, 0, "base", 0⟩ (fun _ => 0) ≠
      1 * ((Real.sin (2 * Real.pi * (1/4) * 1 + 0) +
          0.5 * Real.sin (2 * (2 * Real.pi * (1/4)) * 1 + 2 * 0)) /
         1.299038105676658) + 0 := by
  rw [JS.waveformSample_noiseless _ _ _ _ rfl rfl, JS.kindValue_sum2_eval]
  dsimp only
  rw [show 2 * Real.pi * (1/4 : ℝ) * 1 + 0 = Real.pi / 2 by ring,
    show 2 * (2 * Real.pi * (1/4 : ℝ)) * 1 + 0 / 3 = Real.pi by ring,
    show 2 * (2 * Real.pi * (1/4 : ℝ)) * 1 + 2 * 0 = Real.pi by ring,
    Real.sin_pi_div_two, Real.sin_pi]
  norm_num

/-- The raw harmonic sum `sin x + 0.5·sin 2x` never exceeds `1.3`
(its true maximum is `3√3/4 ≈ 1.29904`). -/
theorem sin_add_half_sin_two_le (x : ℝ) :
    Real.sin x + 0.5 * Real.sin (2 * x) ≤ 1.3 := by
  rw [Real.sin_two_mul]
  nlinarith [Real.sin_sq_add_cos_sq x, sq_nonneg (Real.cos x - 1/2),
    sq_nonneg (Real.cos x + 3/2), sq_nonneg (1 + Real.cos x),
    sq_nonneg (Real.sin x + 0.5 * (2 * Real.sin x * Real.cos x) - 1.3)]

/-- C1 (amended): in the TS variant, with channel noise `0` and
difficulty `"base"`, `waveformSample` of kind `"sum2"` returns
`A·(sin(ωt+φ) + 0.5·sin(2ωt+2φ)) / 1.299038105676658 + dc`; and for
`A = 1`, `f = 1`, `φ = 0`, `dc = 0` the maximum of the output over the
period `[0, 1]` is within 1% of `1.0` (every value is `≤ 1.01` and the
value `0.99` is exceeded somewhere in the period).  The JS variant
instead computes the unnormalized `0.6·A·sin(ωt+φ) + 0.6·A·sin(2ωt+φ/3)`. -/
theorem ts_sum2_normalized :
    (∀ (t : ℝ) (p : WParams) (r : ℕ → ℝ), p.noise = 0 →
      p.difficulty = "base" →
      TS.waveformSample "sum2" t p r =
        p.amplitude *
          ((Real.sin (2 * Real.pi * p.frequency * t + p.phase) +
            0.5 * Real.sin
              (2 * (2 * Real.pi * p.frequency) * t + 2 * p.phase)) /
           1.299038105676658) + p.dc) ∧
    (∀ t ∈ Set.Icc (0 : ℝ) 1,
      TS.waveformSample "sum2" t ⟨1, 1, 0, 0, "base", 0⟩ (fun _ => 0) ≤
        1.01) ∧
    (∃ t ∈ Set.Icc (0 : ℝ) 1,
      0.99 ≤ TS.waveformSample "sum2" t ⟨1, 1, 0, 0, "base", 0⟩
        (fun _ => 0)) := by
  have hform : ∀ (t : ℝ) (p : WParams) (r : ℕ → ℝ), p.noise = 0 →
      p.difficulty = "base" →
      TS.waveformSample "sum2" t p r =
        p.amplitude *
          ((Real.sin (2 * Real.pi * p.frequency * t + p.phase) +
            0.5 * Real.sin
              (2 * (2 * Real.pi * p.frequency) * t + 2 * p.phase)) /
           1.299038105676658) + p.dc := by
    intro t p r hn hd
    rw [TS.waveformSample_noiseless_ts _ _ _ _ hn hd, TS.kindValue_sum2_eval_ts]
  refine ⟨hform, ?_, ?_⟩
  · intro t _
    rw [hform t ⟨1, 1, 0, 0, "base", 0⟩ (fun _ => 0) rfl rfl]
    dsimp only
    rw [show 2 * (2 * Real.pi * (1 : ℝ)) * t + 2 * 0 =
      2 * (2 * Real.pi * 1 * t + 0) by ring]
    have h := sin_add_half_sin_two_le (2 * Real.pi * 1 * t + 0)
    rw [one_mul, add_zero]
    calc (Real.sin (2 * Real.pi * 1 * t + 0) +
          0.5 * Real.sin (2 * (2 * Real.pi * 1 * t + 0))) /
            1.299038105676658
        ≤ 1.3 / 1.299038105676658 := by
          apply (div_le_div_iff_of_pos_right (by norm_num)).mpr h
      _ ≤ 1.01 := by norm_num
  · refine ⟨1/6, by norm_num, ?_⟩
    rw [hform (1/6) ⟨1, 1, 0, 0, "base", 0⟩ (fun _ => 0) rfl rfl]
    dsimp only
    rw [show 2 * Real.pi * (1 : ℝ) * (1/6) + 0 = Real.pi / 3 by ring,
      show 2 * (2 * Real.pi * (1 : ℝ)) * (1/6) + 2 * 0 =
        2 * (Real.pi / 3) by ring,
      Real.sin_two_mul, Real.sin_pi_div_three, Real.cos_pi_div_three]
    have h3 : (1.732 : ℝ) ≤ Real.sqrt 3 :=
      (Real.le_sqrt (by norm_num) (by norm_num)).mpr (by norm_num)
    rw [one_mul, add_zero, le_div_iff₀ (by norm_num)]
    nlinarith [h3]

/-- C1 witness: the TS `"sum2"` formula evaluated at `t = 0`. -/
theorem ts_sum2_normalized_witness :
    TS.waveformSample "sum2" 0 ⟨1, 1, 0, 0, "base", 0⟩ (fun _ => 0) =
      1 * ((Real.sin (2 * Real.pi * 1 * 0 + 0) +
          0.5 * Real.sin (2 * (2 * Real.pi * 1) * 0 + 2 * 0)) /
         1.299038105676658) + 0 :=
  ts_sum2_normalized.1 0 ⟨1, 1, 0, 0, "base", 0⟩ (fun _ => 0) rfl rfl

/-- The example channel of the checker round-trip property: enabled,
`"sine"`, amplitude 2, frequency 1000, dc 1. -/
def sineCh : Channel := ⟨1, true, "sine", 2, 1000, 0, 1, 0⟩

/-- Student entries holding exactly the reference values of `sineCh`. -/
def sineMeasure : Measure :=
  ⟨JSVal.num 3, JSVal.num (-1), JSVal.num 4, JSVal.num 0.001,
    JSVal.num 1000⟩

/-- C3: for the enabled `"sine"` channel with amplitude 2, dc 1 and
frequency 1000, the reference values are `vmax = 3`, `vmin = -1`,
`vpp = 4`, `freq = 1000`, `period = 0.001`, and a student entry holding
exactly these five numbers passes that channel. -/
theorem checker_round_trip_sine :
    JS.computeCorrect sineCh =
      ⟨3, -1, 4, JSVal.num 0.001, 1000⟩ ∧
    JS.checkChannel sineMeasure (JS.computeCorrect sineCh) = true ∧
    JS.doCheckOk [sineCh] (fun _ => sineMeasure) = true := by
  have hc : JS.computeCorrect sineCh = ⟨3, -1, 4, JSVal.num 0.001, 1000⟩ := by
    unfold JS.computeCorrect sineCh
    dsimp only
    rw [if_pos rfl, if_pos (by norm_num : (1000 : ℝ) > 0)]
    norm_num
  have hch : JS.checkChannel sineMeasure (JS.computeCorrect sineCh) = true := by
    rw [hc]
    unfold JS.checkChannel JS.fieldPass
    dsimp only [sineMeasure]
    simp only [decide_eq_true_eq, Bool.and_eq_true, decide_eq_true_iff]
    norm_num [tolV, tolF]
  refine ⟨hc, hch, ?_⟩
  unfold JS.doCheckOk
  simp only [List.all_cons, List.all_nil, Bool.and_true]
  rw [hch]
  rfl

/-- C6: for a finite reference value `cv`, a checker field fails iff the
student entry does not parse to a finite number or the relative error
`|user − ref| / (|ref| + 1e-9)` exceeds the tolerance; in particular a
voltage entered as `ref·1.049` passes for every reference, and for the
reference `vmax = 3` an entry of `3·1.051` fails the 5% tolerance. -/
theorem field_fail_iff_tolerance :
    (∀ (u : JSVal) (cv tol : ℝ),
      (JS.fieldPass u (JSVal.num cv) tol = false ↔
        u = JSVal.nonFinite ∨
          ∃ uv, u = JSVal.num uv ∧ tol < |uv - cv| / (|cv| + 1e-9))) ∧
    (∀ cv : ℝ,
      JS.fieldPass (JSVal.num (cv * 1.049)) (JSVal.num cv) tolV = true) ∧
    JS.fieldPass (JSVal.num (3 * 1.051)) (JSVal.num 3) tolV = false := by
  refine ⟨?_, ?_, ?_⟩
  · intro u cv tol
    cases u with
    | nonFinite => simp [JS.fieldPass]
    | num uv => simp [JS.fieldPass, decide_eq_false_iff_not, not_le]
  · intro cv
    simp only [JS.fieldPass, tolV, decide_eq_true_eq]
    have hd : (0 : ℝ) < |cv| + 1e-9 := by positivity
    rw [div_le_iff₀ hd,
      show cv * 1.049 - cv = cv * 0.049 by ring, abs_mul,
      abs_of_pos (by norm_num : (0 : ℝ) < 0.049)]
    nlinarith [abs_nonneg cv]
  · simp only [JS.fieldPass, decide_eq_false_iff_not, not_le, tolV]
    rw [show (3 : ℝ) * 1.051 - 3 = 0.153 by norm_num,
      abs_of_pos (by norm_num : (0 : ℝ) < 0.153),
      abs_of_pos (by norm_num : (0 : ℝ) < 3),
      lt_div_iff₀ (by norm_num)]
    norm_num

/-- An enabled `"noise"` channel with a nonzero configured frequency. -/
def noiseCh : Channel := ⟨1, true, "noise", 1, 1000, 0, 0, 0⟩

/-- C7 counterexample: the TS variant's inline reference values use the
configured frequency even for a `"noise"` channel — for `noiseCh`
(configured frequency 1000) the reference frequency is `1000`, not `0`. -/
theorem ts_noise_freq_configured :
    (TS.correctVals noiseCh).freq = 1000 ∧ (1000 : ℝ) ≠ 0 := by
  constructor
  · rfl
  · norm_num

/-- C7 (amended): in the JS variant, `computeCorrect` zeroes the
reference frequency of every `"noise"` channel regardless of its
configured frequency (and hence its reference period is the infinite
sentinel); the TS variant's inline reference values instead use the
configured frequency unchanged. -/
theorem noise_reference_freq (ch : Channel) (h : ch.waveform = "noise") :
    (JS.computeCorrect ch).freq = 0 ∧
    (JS.computeCorrect ch).period = JSVal.nonFinite ∧
    (TS.correctVals ch).freq = ch.frequency := by
  have hc : JS.computeCorrect ch =
      { vmax := ch.dc + ch.amplitude, vmin := ch.dc - ch.amplitude,
        vpp := 2 * ch.amplitude, period := JSVal.nonFinite, freq := 0 } := by
    unfold JS.computeCorrect
    rw [h, if_neg (by decide), if_neg (by decide)]
    dsimp only
    rw [if_pos rfl, if_neg (by norm_num : ¬(0 : ℝ) > 0)]
  rw [hc]
  exact ⟨rfl, rfl, rfl⟩

/-- C7 witness: the JS reference frequency of `noiseCh` is `0` and its
reference period is the infinite sentinel. -/
theorem noise_reference_freq_witness :
    (JS.computeCorrect noiseCh).freq = 0 ∧
    (JS.computeCorrect noiseCh).period = JSVal.nonFinite ∧
    (TS.correctVals noiseCh).freq = noiseCh.frequency :=
  noise_reference_freq noiseCh rfl

/-- C8 (amended): for every channel with frequency `0`, the JS reference
period is the infinite sentinel, and the period field then compares as a
non-match for every student entry — including an infinite/undefined one,
since `doCheck` fails a field whenever either side is non-finite. -/
theorem zero_freq_period_never_matches (ch : Channel) (u : JSVal)
    (tol : ℝ) (h : ch.frequency = 0) :
    (JS.computeCorrect ch).period = JSVal.nonFinite ∧
    JS.fieldPass u (JS.computeCorrect ch).period tol = false := by
  have hp : (JS.computeCorrect ch).period = JSVal.nonFinite := by
    unfold JS.computeCorrect
    by_cases h1 : ch.waveform = "sine"
    · rw [if_pos h1]
      dsimp only
      rw [h, if_neg (by norm_num : ¬(0 : ℝ) > 0)]
    rw [if_neg h1]
    by_cases h2 : ch.waveform = "square"
    · rw [if_pos h2]
      dsimp only
      rw [h, if_neg (by norm_num : ¬(0 : ℝ) > 0)]
    rw [if_neg h2]
    dsimp only
    rw [h]
    simp only [ite_self]
    rw [if_neg (by norm_num : ¬(0 : ℝ) > 0)]
  refine ⟨hp, ?_⟩
  rw [hp]
  cases u <;> rfl

/-- An enabled `"square"` channel with frequency `0`. -/
def zeroFreqSq : Channel := ⟨2, true, "square", 1, 0, 0, 0, 0⟩

/-- C8 witness: for `zeroFreqSq` the reference period is the infinite
sentinel and a finite student period entry (`5`) fails the field. -/
theorem zero_freq_period_witness :
    (JS.computeCorrect zeroFreqSq).period = JSVal.nonFinite ∧
    JS.fieldPass (JSVal.num 5) (JS.computeCorrect zeroFreqSq).period
      tolF = false :=
  zero_freq_period_never_matches zeroFreqSq (JSVal.num 5) tolF rfl

/-- An enabled `"sine"` channel with frequency `0`. -/
def zeroFreqCh : Channel := ⟨1, true, "sine", 2, 0, 0, 1, 0⟩

/-- C8 counterexample: for the frequency-`0` channel `zeroFreqCh` the
reference period is the infinite sentinel, and the period field fails
even when the student also reports an infinite/undefined value — the
claim's "unless" clause does not hold on the code. -/
theorem zero_freq_infinite_entry_fails :
    (JS.computeCorrect zeroFreqCh).period = JSVal.nonFinite ∧
    JS.fieldPass JSVal.nonFinite (JS.computeCorrect zeroFreqCh).period
      tolF = false := by
  have hp : (JS.computeCorrect zeroFreqCh).period = JSVal.nonFinite := by
    unfold JS.computeCorrect zeroFreqCh
    dsimp only
    rw [if_pos rfl, if_neg (by norm_num : ¬(0 : ℝ) > 0)]
  exact ⟨hp, by rw [hp]; rfl⟩

/-- C5 counterexample: the JS grid loop draws the vertical gridline of
index 5 (width 980, 10 horizontal divisions) at pixel x = 490 exactly —
not at the pixel-snapped half-integer 490.5 the claim states. -/
theorem js_grid_not_snapped :
    JS.gridVerticalX 10 5 = 490 ∧ (490 : ℝ) ≠ 490.5 := by
  constructor
  · unfold JS.gridVerticalX width
    norm_num
  · norm_num

/-- C5 (amended): the TS grid loop pixel-snaps every gridline to a
half-integer coordinate (`Math.round(i·dx) + 0.5`); for width 980 and
10 horizontal divisions its vertical gridline of index 5 is at
x = 490.5.  The JS grid loop draws at the exact multiples `i·dx` with no
snapping (gridline 5 at x = 490). -/
theorem ts_grid_snapped :
    TS.gridVerticalX 10 5 = 490.5 ∧
    ∀ (divX : ℝ) (i : ℕ), ∃ k : ℤ, TS.gridVerticalX divX i = k + 0.5 := by
  constructor
  · unfold TS.gridVerticalX jsRound width
    norm_num
  · intro divX i
    exact ⟨⌊(i : ℝ) * (width / divX) + 0.5⌋, rfl⟩

/-- C4 (amended): the JS renderer uses, per enabled channel,
`N = max(1000, ⌊sampleRate · totalTime⌋)` samples (so the minimum sample
floor is the constant 1000 ≥ 1000), and maps sample `i` to
`t = (i/(N−1))·totalTime + timeOffset`, `x = (i/(N−1))·W` and
`y = H/2 − ((voltage − voltageOffset)/voltsPerDiv)·(H/verticalDivisions)`
with no further transformation.  (The TS variant uses floor 2000 and
additionally pixel-snaps each vertex to `Math.round(..) + 0.5`.) -/
theorem js_polyline_vertex_formula (shared : Shared) (view : View)
    (ch : Channel) (rand : ℕ → ℕ → ℝ) :
    JS.sampleCount shared view =
      max 1000 ⌊shared.sampleRate * (view.sPerDiv * shared.durationDivs)⌋ ∧
    (1000 : ℤ) ≤ JS.sampleCount shared view ∧
    (JS.channelPolyline shared view ch rand).length =
      (JS.sampleCount shared view).toNat ∧
    ∀ i : ℕ, i < (JS.sampleCount shared view).toNat →
      (JS.channelPolyline shared view ch rand)[i]? =
        some
          (((i : ℝ) / ((JS.sampleCount shared view : ℝ) - 1)) * width,
            height / 2 -
              ((JS.waveformSample ch.waveform
                  (((i : ℝ) / ((JS.sampleCount shared view : ℝ) - 1)) *
                      (view.sPerDiv * shared.durationDivs) +
                    view.tOffset)
                  ⟨ch.amplitude, ch.frequency, ch.phase, ch.dc,
                    shared.difficulty, ch.noise⟩ (rand i) -
                view.vOffset) / view.vPerDiv) *
              (height / shared.verticalDivs)) := by
  refine ⟨rfl, le_max_left _ _, ?_, ?_⟩
  · unfold JS.channelPolyline
    dsimp only
    rw [List.length_map, List.length_range]
  · intro i hi
    unfold JS.channelPolyline
    dsimp only
    rw [List.getElem?_map, List.getElem?_range hi]
    rfl

/-- The JS switch value of the `"sine"` kind. -/
theorem JS.kindValue_sine_eval (t : ℝ) (p : WParams) (rand : ℕ → ℝ) :
    JS.kindValue "sine" t p rand =
      p.amplitude * Real.sin (2 * Real.pi * p.frequency * t + p.phase) := by
  unfold JS.kindValue
  dsimp only
  rw [if_pos rfl]

/-- The default shared state used by the concrete renderer examples:
difficulty `"base"`, sample rate 20000 Hz, 10 horizontal and 8 vertical
divisions. -/
def shared0 : Shared := ⟨"base", 20000, 10, 8⟩

/-- The default student view used by the concrete renderer examples:
1 V/div, 1 ms/div, no offsets. -/
def view0 : View := ⟨1, 0.001, 0, 0⟩

/-- C4 witness: for the default configuration (`N = 1000`) the JS
polyline's vertex of index 0 is `(0, 195)`: time 0, sine value
`2·sin 0 + 1 = 1`, pixel `y = 260 − (1/1)·65 = 195`. -/
theorem js_polyline_vertex_witness :
    (JS.channelPolyline shared0 view0 sineCh (fun _ _ => 0))[0]? =
      some (0, 195) := by
  have h : 0 < (JS.sampleCount shared0 view0).toNat := by
    have h1 := le_max_left (1000 : ℤ)
      ⌊shared0.sampleRate * (view0.sPerDiv * shared0.durationDivs)⌋
    unfold JS.sampleCount
    omega
  have hv := (js_polyline_vertex_formula shared0 view0 sineCh
    (fun _ _ => 0)).2.2.2 0 h
  rw [hv]
  congr 1
  have ht : ((0 : ℕ) : ℝ) / ((JS.sampleCount shared0 view0 : ℝ) - 1) *
      (view0.sPerDiv * shared0.durationDivs) + view0.tOffset = 0 := by
    norm_num [view0]
  rw [ht, JS.waveformSample_noiseless _ _ _ _ rfl rfl]
  dsimp only [sineCh, view0, shared0]
  rw [JS.kindValue_sine_eval]
  dsimp only
  rw [show 2 * Real.pi * (1000 : ℝ) * 0 + 0 = 0 by ring, Real.sin_zero]
  norm_num [height, width]

/-- C4 counterexample: the TS renderer pixel-snaps its vertices — for the
default configuration the vertex of index 0 has pixel
x = `Math.round(0) + 0.5 = 0.5`, not the exact `(0/(N−1))·W = 0` of the
claim's mapping. -/
theorem ts_polyline_vertex_snapped :
    ((TS.channelPolyline shared0 view0 sineCh (fun _ _ => 0))[0]?).map
        Prod.fst = some (1/2) ∧
    ((1 : ℝ)/2) ≠
      ((0 : ℝ) / ((TS.sampleCount shared0 view0 : ℝ) - 1)) * width := by
  constructor
  · have h0 : 0 < (TS.sampleCount shared0 view0).toNat := by
      have h1 := le_max_left (2000 : ℤ)
        ⌊shared0.sampleRate * (view0.sPerDiv * shared0.durationDivs)⌋
      unfold TS.sampleCount
      omega
    unfold TS.channelPolyline
    dsimp only
    rw [List.getElem?_map, List.getElem?_range h0]
    dsimp only [Option.map]
    congr 1
    norm_num [jsRound]
  · norm_num
